import Mathlib

/-!
Shallow embedding of the GNN4Grains/gns repository (files `gns.py` and
`gns/train_baseline.py`) for checking its natural-language specification.

Conventions:
* Machine floats are modelled as exact rationals `ℚ` (or `ℝ` where the source
  takes a square root), so the algebraic structure of the code is captured
  without floating-point rounding.
* Tensors are modelled as nested lists: a position is a `List ℚ` (one entry per
  spatial dimension), a per-particle window is a `List` of positions, and a
  batched tensor is a list over particles.
* Python functions that can raise are modelled as `Option`-valued functions
  (`none` = the call raises).
-/

namespace GNS

/-! ### `build_mlp` (src/gns.py, lines 6-43) -/

/-- A PyTorch activation module class, as passed to `build_mlp`
(`nn.ReLU`, `nn.Identity`, or any other module class). -/
inductive Act where
  | relu
  | identity
  | other (tag : Nat)
deriving DecidableEq, Repr

/-- One `nn.Linear(inSize, outSize)` layer together with the activation module
appended directly after it in the sequential container. -/
structure LayerSpec where
  inSize : Nat
  outSize : Nat
  act : Act
deriving DecidableEq, Repr

/-- Python truthiness of the `output_size: int = None` argument:
`if output_size:` is false both for `None` and for `0`. -/
def truthy : Option Nat → Bool
  | none => false
  | some n => n != 0

/-- `build_mlp` from `src/gns.py`.

The source builds `layer_sizes = [input_size] + hidden_layer_sizes`, appends
`output_size` only when it is truthy, makes `nlayers = len(layer_sizes) - 1`
activation entries equal to `activation`, overwrites the last entry
(`act[-1] = output_activation`), and emits one `nn.Linear` + activation pair
per consecutive size pair.  When `nlayers = 0` the statement
`act[-1] = output_activation` raises `IndexError` on the empty list, modelled
here as `none`. -/
def build_mlp (input_size : Nat) (hidden_layer_sizes : List Nat)
    (output_size : Option Nat := none)
    (output_activation : Act := .identity)
    (activation : Act := .relu) : Option (List LayerSpec) :=
  let layer_sizes := input_size :: hidden_layer_sizes ++
    (if truthy output_size then [output_size.getD 0] else [])
  let nlayers := layer_sizes.length - 1
  if nlayers = 0 then
    none
  else
    let act := (List.replicate nlayers activation).set (nlayers - 1) output_activation
    some (List.zipWith (fun p a => ⟨p.1, p.2, a⟩) (layer_sizes.zip layer_sizes.tail) act)

/-- The MLP layout described by the specification of `build_mlp`: for the
concatenated size list `[input_size] ++ hidden ++ [output_size]`, the `i`-th
linear layer maps `sizes[i]` to `sizes[i+1]`; every layer except the final one
is followed by the hidden activation, the final one by the output
activation. -/
def specMLP (input_size : Nat) (hidden : List Nat) (output_size : Nat)
    (output_activation : Act) (activation : Act) : List LayerSpec :=
  let sizes := input_size :: hidden ++ [output_size]
  (List.range (sizes.length - 1)).map (fun i =>
    ⟨sizes.getD i 0, sizes.getD (i + 1) 0,
      if i = sizes.length - 2 then output_activation else activation⟩)

/-! ### Rollout driver (src/gns/train_baseline.py, lines 62-124) -/

/-- A position: one rational per spatial dimension. -/
abbrev Vec := List ℚ

/-- A particle-major position tensor of shape `(nparticles, time, dim)`. -/
abbrev Positions := List (List Vec)

/-- Edge connectivity, as pairs of particle indices. -/
abbrev EdgeIndex := List (Nat × Nat)

/-- `INPUT_SEQUENCE_LENGTH = 6` (train_baseline.py line 62). -/
def INPUT_SEQUENCE_LENGTH : Nat := 6

/-- `KINEMATIC_PARTICLE_ID = -1` (train_baseline.py line 64). -/
def KINEMATIC_PARTICLE_ID : Int := -1

/-- One window shift of the rollout loop (train_baseline.py lines 107-108):
`current_positions = torch.cat([current_positions[:, 1:], next_position[:, None, :]], dim=1)` —
per particle, drop the oldest position and append the newly predicted one. -/
def shiftWindow (cur : Positions) (next_position : List Vec) : Positions :=
  List.zipWith (fun hist nx => hist.drop 1 ++ [nx]) cur next_position

/-- The `for step in range(nsteps)` loop of `rollout` (train_baseline.py
lines 89-108), with the loop-invariant `particle_types` / `edge_index`
arguments already fixed inside `predict`.  Returns the list of appended
predictions (time-major, as produced by `torch.stack`) together with the list
of windows handed to `simulator.predict_positions`, in call order.

Note: the source computes `kinematic_mask` inside the loop (lines 98-100) but
the `torch.where(kinematic_mask, next_position_ground_truth, next_position)`
update is commented out (lines 99, 101-102), so the mask has no effect and the
network prediction is appended unconditionally (line 103). -/
def rolloutLoop (predict : Positions → List Vec) :
    Positions → Nat → List (List Vec) × List Positions
  | _, 0 => ([], [])
  | cur, n + 1 =>
    let next := predict cur
    let rest := rolloutLoop predict (shiftWindow cur next) n
    (next :: rest.1, cur :: rest.2)

/-- The `output_dict` built at the end of `rollout`
(train_baseline.py lines 117-122). -/
structure RolloutOutput where
  /-- `initial_positions.permute(1, 0, 2)`: time-major initial window. -/
  initial_positions : List (List Vec)
  /-- `torch.stack(predictions)`: shape `(time, nnodes, dim)`. -/
  predicted_rollout : List (List Vec)
  ground_truth_rollout : List Vec
  particle_types : List Int
deriving DecidableEq, Repr

/-- `rollout` from `src/gns/train_baseline.py` (lines 66-124).

`initial_positions = position[:, :INPUT_SEQUENCE_LENGTH]` seeds the window,
the loop produces `nsteps` predictions, `predictions = torch.stack(predictions)`
raises when the list is empty (`nsteps = 0`), modelled as `none`; the returned
loss is `(predictions[-1] - ground_truth_positions) ** 2`. -/
def rollout (predict : Positions → List Int → EdgeIndex → List Vec)
    (position : Positions) (label : List Vec) (particle_types : List Int)
    (edge_index : EdgeIndex) (nsteps : Nat) :
    Option (RolloutOutput × List Vec) :=
  let initial_positions := position.map (fun p => p.take INPUT_SEQUENCE_LENGTH)
  let res := rolloutLoop (fun cur => predict cur particle_types edge_index)
    initial_positions nsteps
  match res.1 with
  | [] => none
  | _ :: _ =>
    let lastPred := res.1.getLastD []
    let loss := List.zipWith
      (fun p g => List.zipWith (fun a b => (a - b) ^ 2) p g) lastPred label
    some ({ initial_positions := initial_positions.transpose,
            predicted_rollout := res.1,
            ground_truth_rollout := label,
            particle_types := particle_types },
          loss)

/-! ### Training-loop noise masking and loss (src/gns/train_baseline.py, lines 317-346) -/

/-- The noise-masking step of the training loop (train_baseline.py
lines 320-321): `non_kinematic_mask = (particle_type != KINEMATIC_PARTICLE_ID)`
followed by `sampled_noise *= non_kinematic_mask.view(-1, 1, 1)` — each
particle's whole `(time, dim)` noise block is multiplied by `1` when the
particle is non-kinematic and by `0` when it is kinematic.  The sampled noise
itself comes from `noise_utils.get_random_walk_noise_for_position_sequence`
(not part of this repository's sources), so it is left universally
quantified. -/
def applyNonKinematicMask (particle_type : List Int) (sampled_noise : Positions) :
    Positions :=
  List.zipWith
    (fun t block =>
      block.map (fun row => row.map (fun x =>
        x * (if t != KINEMATIC_PARTICLE_ID then 1 else 0))))
    particle_type sampled_noise

/-- The loss computation of the training loop (train_baseline.py
lines 340-346):
`loss = (pred_acc - target_acc)**2`, `loss = loss.sum(dim=-1)`,
`num_non_kinematic = non_kinematic_mask.sum()`,
`loss = torch.where(non_kinematic_mask.bool(), loss, zeros)`,
`loss = loss.sum() / num_non_kinematic`. -/
def trainLoss (pred_acc target_acc : List Vec) (particle_type : List Int) : ℚ :=
  let sq := List.zipWith
    (fun p t => List.zipWith (fun a b => (a - b) ^ 2) p t) pred_acc target_acc
  let summed := sq.map (fun row => row.sum)
  let non_kinematic_mask := particle_type.map (fun t => t != KINEMATIC_PARTICLE_ID)
  let num_non_kinematic : ℚ := (non_kinematic_mask.count true : ℚ)
  let masked := List.zipWith (fun m l => if m then l else 0) non_kinematic_mask summed
  masked.sum / num_non_kinematic

/-- The loss formula as the specification words it: the sum, over the
non-kinematic particles only, of the per-particle squared acceleration error
(summed over spatial dimensions), divided by the number of non-kinematic
particles. -/
def specTrainLoss (pred_acc target_acc : List Vec) (particle_type : List Int) : ℚ :=
  let perParticle := List.zipWith
    (fun p t => (List.zipWith (fun a b => (a - b) ^ 2) p t).sum) pred_acc target_acc
  let nonKin := (particle_type.zip perParticle).filter
    (fun pt => pt.1 != KINEMATIC_PARTICLE_ID)
  (nonKin.map (fun pt => pt.2)).sum /
    ((particle_type.filter (fun t => t != KINEMATIC_PARTICLE_ID)).length : ℚ)

/-! ### Checkpoint resolution and loading (src/gns/train_baseline.py, lines 239-277) -/

/-- Strips a leading character sequence: `some` of the remainder when `p` is
an initial segment of the second list, `none` otherwise. -/
def dropPrefixChars : List Char → List Char → Option (List Char)
  | [], s => some s
  | _ :: _, [] => none
  | p :: ps, c :: cs => if c = p then dropPrefixChars ps cs else none

/-- The numeric value of a non-empty decimal digit string, `none` otherwise
(the `(\d+)` capture group of the checkpoint regex followed by `int(...)`). -/
def decimalValue (cs : List Char) : Option Nat :=
  if cs.isEmpty then none
  else
    cs.foldl
      (fun acc c => match acc with
        | none => none
        | some a => if c.isDigit then some (10 * a + (c.toNat - 48)) else none)
      (some 0)

/-- Extraction of the numeric step from a checkpoint file name, modelling the
glob pattern `{exp_id}-model-*pt` combined with the regex
`.{exp_id}-model-(\d+).pt` and `int(expr.search(fname).groups()[0])`
(train_baseline.py lines 243-247): a name of the form
`{exp_id}-model-{digits}.pt` yields those digits as a number. -/
def parseModelStep (exp_id fname : String) : Option Nat :=
  match dropPrefixChars (exp_id ++ "-model-").data fname.data with
  | none => none
  | some rest =>
    if ".pt".data.isSuffixOf rest then
      decimalValue (rest.take (rest.length - 3))
    else
      none

/-- The step numbers of all matching checkpoint files in the directory. -/
def modelSteps (exp_id : String) (fnames : List String) : List Nat :=
  fnames.filterMap (parseModelStep exp_id)

/-- The `max_model_number` loop (train_baseline.py lines 244-249): starting
from `0`, keep the larger of the running maximum and each file's step. -/
def maxModelNumber (exp_id : String) (fnames : List String) : Nat :=
  (modelSteps exp_id fnames).foldl (fun m n => if n > m then n else m) 0

/-- Resolution of `model_file = train_state_file = "latest"`
(train_baseline.py lines 250-252): both names are rewritten to point at the
maximal step found. -/
def resolveLatest (exp_id : String) (fnames : List String) : String × String :=
  let m := maxModelNumber exp_id fnames
  (exp_id ++ "-model-" ++ toString m ++ ".pt",
   exp_id ++ "-train-state-" ++ toString m ++ ".pt")

/-- Outcome of the checkpoint-loading stage of `train`. -/
inductive CheckpointInit where
  /-- Both files exist: model and optimizer state are loaded and the global
  step is restored from the train state. -/
  | loaded (step : Nat)
  /-- The missing-pair message is logged and training starts from scratch at
  step `0` with a fresh optimizer. -/
  | freshStart
  /-- A fatal error (e.g. `FileNotFoundError`) is raised. -/
  | fatalError
deriving DecidableEq, Repr

/-- The checkpoint-loading branch of `train` (train_baseline.py lines
254-277): when both the resolved model file and train-state file exist, the
model is loaded and the step restored; otherwise the source logs
`Specified model_file ... and train_state_file ... not found.` and
`Starting training from scratch.` and proceeds — the
`raise FileNotFoundError(msg)` on line 275 is commented out. -/
def checkpointInit (model_file_exists train_state_file_exists : Bool)
    (saved_step : Nat) : CheckpointInit :=
  if model_file_exists && train_state_file_exists then
    .loaded saved_step
  else
    .freshStart

/-! ### Normalization statistics (src/gns/train_baseline.py, lines 421-433) -/

/-- The `Stats` named tuple (train_baseline.py line 60): `(mean, std)`, each a
per-dimension vector.  Modelled over `ℝ` because the source takes a square
root. -/
structure Stats where
  mean : List ℝ
  std : List ℝ

/-- One entry of the `normalization_stats` dictionary built by
`_get_simulator` (train_baseline.py lines 422-433): the mean is taken from the
metadata unchanged, and the std is
`torch.sqrt(torch.FloatTensor(metadata[...])**2 + noise_std**2)`
elementwise. -/
noncomputable def adjustedStats (data_mean data_std : List ℝ) (noise_std : ℝ) :
    Stats :=
  { mean := data_mean,
    std := data_std.map (fun s => Real.sqrt (s ^ 2 + noise_std ^ 2)) }

/-- The full `normalization_stats` dictionary of `_get_simulator`: the
`'acceleration'` entry from `acc_mean`/`acc_std`/`acc_noise_std` and the
`'velocity'` entry from `vel_mean`/`vel_std`/`vel_noise_std`. -/
noncomputable def normalizationStats (acc_mean acc_std vel_mean vel_std : List ℝ)
    (acc_noise_std vel_noise_std : ℝ) : Stats × Stats :=
  (adjustedStats acc_mean acc_std acc_noise_std,
   adjustedStats vel_mean vel_std vel_noise_std)

end GNS

namespace GNS

/-! ### Theorems about `build_mlp` (claims C3, C4, C10) -/

/-- Helper: the zip-consecutive-sizes construction of `build_mlp` agrees with
the index-wise description of the layer list, for any size list. -/
theorem mlpLayers_eq (sizes : List Nat) (oa a : Act) :
    List.zipWith (fun (p : Nat × Nat) (x : Act) => LayerSpec.mk p.1 p.2 x)
      (sizes.zip sizes.tail)
      ((List.replicate (sizes.length - 1) a).set (sizes.length - 1 - 1) oa) =
    (List.range (sizes.length - 1)).map (fun i =>
      ⟨sizes.getD i 0, sizes.getD (i + 1) 0,
        if i = sizes.length - 2 then oa else a⟩) := by
  apply List.ext_getElem
  · simp only [List.length_zipWith, List.length_zip, List.length_tail,
      List.length_set, List.length_replicate, List.length_map, List.length_range]
    omega
  · intro n h1 h2
    have hn : n < sizes.length - 1 := by
      simpa using h2
    have hns : n < sizes.length := by omega
    have hn1 : n + 1 < sizes.length := by omega
    simp only [List.getElem_zipWith, List.getElem_zip, List.getElem_tail,
      List.getElem_set, List.getElem_replicate, List.getElem_map, List.getElem_range]
    rw [List.getD_eq_getElem _ _ hns, List.getD_eq_getElem _ _ hn1]
    congr 1
    by_cases hc : n = sizes.length - 2
    · simp [hc]
      omega
    · rw [if_neg hc, if_neg (by omega)]

/-- Claim C4 (amended: nonzero output size): for every input size, non-empty
hidden-layer list and *nonzero* output size, `build_mlp` returns the layer
list whose `i`-th linear layer maps `sizes[i]` to `sizes[i+1]` for
`sizes = [input_size] ++ hidden ++ [output_size]`, each layer followed by the
hidden activation except the final one, which is followed by the
caller-specified output activation. -/
theorem build_mlp_structure (input_size : Nat) (hidden : List Nat) (o : Nat)
    (oa a : Act) (_hh : hidden ≠ []) (ho : o ≠ 0) :
    build_mlp input_size hidden (some o) oa a =
      some (specMLP input_size hidden o oa a) := by
  have ht : truthy (some o) = true := by simp [truthy, ho]
  simp only [build_mlp, specMLP, ht, if_true, Option.getD_some]
  rw [if_neg (by simp)]
  exact congrArg some (mlpLayers_eq (input_size :: hidden ++ [o]) oa a)

/-- Witness for C4's theorem at a concrete input. -/
theorem build_mlp_structure_witness :
    ([4, 7] : List Nat) ≠ [] ∧ (2 : Nat) ≠ 0 ∧
    build_mlp 3 [4, 7] (some 2) .identity .relu =
      some (specMLP 3 [4, 7] 2 .identity .relu) :=
  ⟨by decide, by decide,
    build_mlp_structure 3 [4, 7] 2 .identity .relu (by decide) (by decide)⟩

/-- Counterexample to claim C4 as stated: at `output_size = 0` the built
network does not follow the concatenated size list
`[input_size] ++ hidden ++ [0]` (the output layer is dropped by the
truthiness test). -/
theorem build_mlp_zero_output_differs :
    build_mlp 3 [4] (some 0) .identity .relu ≠
      some (specMLP 3 [4] 0 .identity .relu) := by decide

/-- Claim C3 (amended): with an empty hidden-layer list, `build_mlp` fails
(`act[-1]` raises `IndexError`) exactly when the output size is falsy (`None`
or `0`); with a nonzero output size it instead returns a single linear layer
from `input_size` to the output size followed by the output activation. -/
theorem build_mlp_empty_hidden (input_size : Nat) (o : Nat) (oa a : Act)
    (ho : o ≠ 0) :
    build_mlp input_size [] none oa a = none ∧
    build_mlp input_size [] (some 0) oa a = none ∧
    build_mlp input_size [] (some o) oa a = some [⟨input_size, o, oa⟩] := by
  refine ⟨rfl, rfl, ?_⟩
  have ht : truthy (some o) = true := by simp [truthy, ho]
  simp [build_mlp, ht]

/-- Witness for C3's amended theorem at a concrete input. -/
theorem build_mlp_empty_hidden_witness :
    (5 : Nat) ≠ 0 ∧
    (build_mlp 10 [] none .identity .relu = none ∧
     build_mlp 10 [] (some 0) .identity .relu = none ∧
     build_mlp 10 [] (some 5) .identity .relu = some [⟨10, 5, .identity⟩]) :=
  ⟨by decide, build_mlp_empty_hidden 10 5 .identity .relu (by decide)⟩

/-- Counterexample to claim C3 as stated: with an empty hidden-layer list but
a nonzero output size, `build_mlp` does not fail — it returns a one-layer
network. -/
theorem build_mlp_empty_hidden_builds :
    build_mlp 10 [] (some 5) .identity .relu = some [⟨10, 5, .identity⟩] := by
  decide

/-- Claim C10: `build_mlp` with `output_size = 0` behaves identically to
`build_mlp` with `output_size` omitted (`None`), for every input size,
hidden-layer list and activations, because `if output_size:` is a truthiness
test. -/
theorem build_mlp_zero_output_eq_none (input_size : Nat) (hidden : List Nat)
    (oa a : Act) :
    build_mlp input_size hidden (some 0) oa a =
      build_mlp input_size hidden none oa a := rfl

/-! ### Theorems about the rollout driver (claims C1, C2) -/

/-- Helper: `shiftWindow` keeps the particle count at the minimum of the two
argument counts. -/
theorem length_shiftWindow (cur : Positions) (next : List Vec) :
    (shiftWindow cur next).length = min cur.length next.length := by
  simp [shiftWindow]

/-- Helper: when every particle window has `C ≥ 1` entries, dropping the
oldest entry and appending the new prediction keeps exactly `C` entries. -/
theorem shiftWindow_mem_length {C : Nat} (hC : 1 ≤ C) :
    ∀ (cur : Positions) (next : List Vec),
      (∀ p ∈ cur, p.length = C) → ∀ p ∈ shiftWindow cur next, p.length = C := by
  intro cur
  induction cur with
  | nil =>
    intro next _ p hp
    simp [shiftWindow] at hp
  | cons x xs ih =>
    intro next hlen p hp
    cases next with
    | nil => simp [shiftWindow] at hp
    | cons y ys =>
      rw [shiftWindow, List.zipWith_cons_cons] at hp
      rcases List.mem_cons.mp hp with h | h
      · subst h
        have hx : x.length = C := hlen x (List.mem_cons_self x xs)
        simp [List.length_append, List.length_drop, hx]
        omega
      · exact ih ys (fun q hq => hlen q (List.mem_cons_of_mem _ hq)) p h

/-- Helper: invariants of the rollout loop.  If the single-step predictor
returns one position per particle, then over `n` iterations the loop produces
exactly `n` predictions, every prediction frame and every window keeps the
particle count, and every window handed to the predictor still has exactly
`C` entries per particle. -/
theorem rolloutLoop_invariant (f : Positions → List Vec)
    (hf : ∀ cur, (f cur).length = cur.length) {C : Nat} (hC : 1 ≤ C) :
    ∀ (n : Nat) (cur : Positions), (∀ p ∈ cur, p.length = C) →
      (rolloutLoop f cur n).1.length = n ∧
      (∀ fr ∈ (rolloutLoop f cur n).1, fr.length = cur.length) ∧
      (∀ w ∈ (rolloutLoop f cur n).2,
        w.length = cur.length ∧ ∀ p ∈ w, p.length = C) := by
  intro n
  induction n with
  | zero =>
    intro cur _
    simp [rolloutLoop]
  | succ m ih =>
    intro cur hcur
    have hnext : (f cur).length = cur.length := hf cur
    have hshift_len : (shiftWindow cur (f cur)).length = cur.length := by
      rw [length_shiftWindow, hnext, min_self]
    have hshift_mem : ∀ p ∈ shiftWindow cur (f cur), p.length = C :=
      shiftWindow_mem_length hC cur (f cur) hcur
    obtain ⟨h1, h2, h3⟩ := ih (shiftWindow cur (f cur)) hshift_mem
    simp only [rolloutLoop]
    refine ⟨by simpa using h1, ?_, ?_⟩
    · intro fr hfr
      rcases List.mem_cons.mp hfr with h | h
      · subst h; exact hnext
      · rw [h2 fr h, hshift_len]
    · intro w hw
      rcases List.mem_cons.mp hw with h | h
      · subst h; exact ⟨rfl, hcur⟩
      · obtain ⟨hwl, hwp⟩ := h3 w h
        exact ⟨by rw [hwl, hshift_len], hwp⟩

/-- Claim C2 (amended: `S ≥ 1`): for every input with exactly `C = 6` past
positions per particle, a predictor satisfying the one-position-per-particle
shape contract, and every number of rollout steps `S ≥ 1`, `rollout` returns a
`predicted_rollout` of exactly `S` frames with one position per particle, and
every window handed to the predictor — the oldest entry dropped, the newest
prediction appended — has exactly `C = 6` entries per particle.  (At `S = 0`
the source raises instead, see the counterexample.) -/
theorem rollout_shape_invariant
    (predict : Positions → List Int → EdgeIndex → List Vec)
    (position : Positions) (label : List Vec) (particle_types : List Int)
    (edge_index : EdgeIndex) (S : Nat) (hS : 1 ≤ S)
    (hwin : ∀ p ∈ position, p.length = INPUT_SEQUENCE_LENGTH)
    (hpred : ∀ cur, (predict cur particle_types edge_index).length = cur.length) :
    ∃ out loss,
      rollout predict position label particle_types edge_index S = some (out, loss) ∧
      out.predicted_rollout.length = S ∧
      (∀ fr ∈ out.predicted_rollout, fr.length = position.length) ∧
      (∀ w ∈ (rolloutLoop (fun cur => predict cur particle_types edge_index)
          (position.map (fun p => p.take INPUT_SEQUENCE_LENGTH)) S).2,
        ∀ p ∈ w, p.length = INPUT_SEQUENCE_LENGTH) := by
  have hinit : ∀ p ∈ position.map (fun p => p.take INPUT_SEQUENCE_LENGTH),
      p.length = INPUT_SEQUENCE_LENGTH := by
    intro p hp
    obtain ⟨q, hq, rfl⟩ := List.mem_map.mp hp
    rw [List.length_take, hwin q hq, min_self]
  obtain ⟨h1, h2, h3⟩ :=
    rolloutLoop_invariant (fun cur => predict cur particle_types edge_index)
      hpred (by norm_num [INPUT_SEQUENCE_LENGTH]) S
      (position.map (fun p => p.take INPUT_SEQUENCE_LENGTH)) hinit
  have hne : (rolloutLoop (fun cur => predict cur particle_types edge_index)
      (position.map (fun p => p.take INPUT_SEQUENCE_LENGTH)) S).1 ≠ [] := by
    intro h
    rw [h] at h1
    simp at h1
    omega
  obtain ⟨hd, tl, hcons⟩ := List.exists_cons_of_ne_nil hne
  rw [hcons] at h1 h2
  refine ⟨⟨(position.map (fun p => p.take INPUT_SEQUENCE_LENGTH)).transpose,
      hd :: tl, label, particle_types⟩,
    List.zipWith (fun p g => List.zipWith (fun a b => (a - b) ^ 2) p g)
      ((hd :: tl).getLastD []) label,
    ?_, h1, ?_, fun w hw => (h3 w hw).2⟩
  · simp only [rollout, hcons]
  · intro fr hfr
    rw [h2 fr hfr, List.length_map]

/-- Witness for C2's theorem at a concrete input: one particle, a six-entry
window, two rollout steps, and a predictor that repeats the latest
position. -/
theorem rollout_shape_invariant_witness :
    (1 ≤ 2) ∧
    (∀ p ∈ ([[[0], [0], [0], [0], [0], [(2 : ℚ)]]] : Positions),
      p.length = INPUT_SEQUENCE_LENGTH) ∧
    (∀ cur : Positions,
      ((fun (c : Positions) (_ : List Int) (_ : EdgeIndex) =>
        c.map (fun h => h.getLastD [])) cur [(0 : Int)] []).length = cur.length) ∧
    (∃ out loss,
      rollout (fun (c : Positions) _ _ => c.map (fun h => h.getLastD []))
        [[[0], [0], [0], [0], [0], [(2 : ℚ)]]] [[(9 : ℚ)]] [(0 : Int)] [] 2 =
        some (out, loss) ∧
      out.predicted_rollout.length = 2 ∧
      (∀ fr ∈ out.predicted_rollout,
        fr.length = ([[[0], [0], [0], [0], [0], [(2 : ℚ)]]] : Positions).length) ∧
      (∀ w ∈ (rolloutLoop
          (fun cur => (fun (c : Positions) (_ : List Int) (_ : EdgeIndex) =>
            c.map (fun h => h.getLastD [])) cur [(0 : Int)] [])
          (([[[0], [0], [0], [0], [0], [(2 : ℚ)]]] : Positions).map
            (fun p => p.take INPUT_SEQUENCE_LENGTH)) 2).2,
        ∀ p ∈ w, p.length = INPUT_SEQUENCE_LENGTH)) :=
  ⟨by decide, by decide, fun cur => by simp,
    rollout_shape_invariant _ _ [[(9 : ℚ)]] [(0 : Int)] [] 2 (by decide)
      (by decide) (fun cur => by simp)⟩

/-- Counterexample to claim C2 as stated: at `S = 0` the rollout does not
return an empty `predicted_rollout` — `torch.stack` of the empty predictions
list raises (modelled as `none`). -/
theorem rollout_zero_steps_raises :
    rollout (fun _ _ _ => [[(1 : ℚ)]]) [[[0], [0], [0], [0], [0], [0]]]
      [[(5 : ℚ)]] [(0 : Int)] [] 0 = none := by decide

/-- Claim C1 (the code contradicts it): at a concrete input with a single
particle of the reserved kinematic type (`KINEMATIC_PARTICLE_ID = -1`), a
predictor returning position `[1]` and prescribed ground-truth next position
`[5]`, the rollout appends the network prediction `[1]` to
`predicted_rollout` — the `torch.where(kinematic_mask, ...)` update from the
prescribed trajectory is commented out in the source, so kinematic particles'
entries ARE produced by the learned dynamics. -/
theorem rollout_kinematic_uses_network_prediction :
    (rollout (fun _ _ _ => [[(1 : ℚ)]]) [[[0], [0], [0], [0], [0], [0]]]
        [[(5 : ℚ)]] [KINEMATIC_PARTICLE_ID] [] 1).map
        (fun r => r.1.predicted_rollout) = some [[[(1 : ℚ)]]] ∧
    (1 : ℚ) ≠ (5 : ℚ) := by
  constructor
  · decide
  · decide

/-! ### Theorems about the training-loop noise mask and loss (claims C5, C6) -/

/-- Claim C5: in the training loop, for every particle whose type equals the
reserved kinematic id `-1`, and whatever noise tensor the external random-walk
generator produced for any requested noise std `> 0`, the noise actually
applied after the `sampled_noise *= non_kinematic_mask.view(-1, 1, 1)` masking
is exactly zero at every time offset and every spatial dimension. -/
theorem kinematic_noise_zeroed (noise_std : ℚ) (_hσ : 0 < noise_std)
    (particle_type : List Int) (sampled_noise : Positions) (i : Nat)
    (hi : i < (applyNonKinematicMask particle_type sampled_noise).length)
    (ht : particle_type.getD i 0 = KINEMATIC_PARTICLE_ID) :
    ∀ row ∈ (applyNonKinematicMask particle_type sampled_noise)[i],
      ∀ x ∈ row, x = 0 := by
  have hbounds : i < particle_type.length ∧ i < sampled_noise.length := by
    have h := hi
    rw [applyNonKinematicMask, List.length_zipWith] at h
    omega
  have hgt : particle_type[i] = KINEMATIC_PARTICLE_ID := by
    rw [← List.getD_eq_getElem particle_type 0 hbounds.1]
    exact ht
  intro row hrow x hx
  simp only [applyNonKinematicMask, List.getElem_zipWith, hgt, bne_self_eq_false,
    Bool.false_eq_true, if_false, mul_zero, List.mem_map] at hrow
  obtain ⟨r, _, rfl⟩ := hrow
  simp only [List.mem_map] at hx
  obtain ⟨y, _, rfl⟩ := hx
  rfl

/-- Witness for C5's theorem at a concrete input: the first particle is
kinematic and its masked noise block is all zeros. -/
theorem kinematic_noise_zeroed_witness :
    (0 : ℚ) < 1 ∧
    0 < (applyNonKinematicMask [(-1 : Int), 0]
      [[[3, 4], [5, 6]], [[3, 4], [5, 6]]]).length ∧
    ([(-1 : Int), 0].getD 0 0 = KINEMATIC_PARTICLE_ID) ∧
    (∀ row ∈ (applyNonKinematicMask [(-1 : Int), 0]
        [[[3, 4], [5, 6]], [[3, 4], [5, 6]]])[0],
      ∀ x ∈ row, x = 0) :=
  ⟨zero_lt_one, by decide, by decide,
    kinematic_noise_zeroed 1 zero_lt_one [(-1 : Int), 0]
      [[[3, 4], [5, 6]], [[3, 4], [5, 6]]] 0 (by decide) (by decide)⟩

/-- Helper: summing the `torch.where`-masked per-particle losses equals
summing the losses of the particles that survive the filter. -/
theorem maskedSum_eq_filterSum :
    ∀ (types : List Int) (vals : List ℚ),
      (List.zipWith (fun (m : Bool) l => if m then l else 0)
        (types.map (fun t => t != KINEMATIC_PARTICLE_ID)) vals).sum =
      (((types.zip vals).filter (fun pt => pt.1 != KINEMATIC_PARTICLE_ID)).map
        (fun pt => pt.2)).sum := by
  intro types
  induction types with
  | nil => intro vals; simp
  | cons t ts ih =>
    intro vals
    cases vals with
    | nil => simp
    | cons v vs =>
      simp only [List.map_cons, List.zipWith_cons_cons, List.zip_cons_cons,
        List.filter_cons]
      by_cases hm : (t != KINEMATIC_PARTICLE_ID) = true
      · simp [hm, ih vs]
      · simp [hm, ih vs]

/-- Helper: counting `true` in the non-kinematic mask equals the number of
non-kinematic particles. -/
theorem maskCount_eq_filterLength (types : List Int) :
    (types.map (fun t => t != KINEMATIC_PARTICLE_ID)).count true =
    (types.filter (fun t => t != KINEMATIC_PARTICLE_ID)).length := by
  induction types with
  | nil => rfl
  | cons t ts ih =>
    by_cases hm : (t != KINEMATIC_PARTICLE_ID) = true
    · simp [List.count_cons, List.filter_cons, hm, ih]
    · simp [List.count_cons, List.filter_cons, hm, ih]

/-- Claim C6: for every batch, the training loss computed by the source
(squared error summed over spatial dimensions, `torch.where`-masked to zero on
kinematic particles, summed and divided by `non_kinematic_mask.sum()`) equals
the sum over non-kinematic particles of the per-particle squared acceleration
error divided by the number of non-kinematic particles; kinematic particles
contribute exactly zero to the numerator. -/
theorem trainLoss_eq_spec (pred_acc target_acc : List Vec)
    (particle_type : List Int) :
    trainLoss pred_acc target_acc particle_type =
      specTrainLoss pred_acc target_acc particle_type := by
  simp only [trainLoss, specTrainLoss]
  rw [List.map_zipWith, maskedSum_eq_filterSum, maskCount_eq_filterLength]

/-! ### Theorems about normalization statistics (claim C7) -/

/-- Helper: one `adjustedStats` entry keeps the data mean, and its stored std
is the nonnegative solution of `std² = std_data² + noise_std²` elementwise. -/
theorem adjustedStats_spec (data_mean data_std : List ℝ) (noise_std : ℝ) :
    (adjustedStats data_mean data_std noise_std).mean = data_mean ∧
    (adjustedStats data_mean data_std noise_std).std.map (fun x => x ^ 2) =
      data_std.map (fun s => s ^ 2 + noise_std ^ 2) ∧
    (adjustedStats data_mean data_std noise_std).std.Forall (fun x => 0 ≤ x) := by
  refine ⟨rfl, ?_, ?_⟩
  · rw [adjustedStats, List.map_map]
    apply List.map_congr_left
    intro s _
    have hnn : (0 : ℝ) ≤ s ^ 2 + noise_std ^ 2 := by positivity
    simp [Function.comp, Real.sq_sqrt hnn]
  · rw [List.forall_iff_forall_mem]
    intro x hx
    rw [adjustedStats] at hx
    obtain ⟨s, _, rfl⟩ := List.mem_map.mp hx
    exact Real.sqrt_nonneg _

/-- Claim C7: the normalization statistics built by `_get_simulator` keep the
metadata means unchanged, and for both the acceleration and the velocity entry
the stored std is the nonnegative quantity whose square is
`std_data² + noise_std²` elementwise — i.e. the data std with the noise std
added in quadrature. -/
theorem normalizationStats_spec (acc_mean acc_std vel_mean vel_std : List ℝ)
    (acc_noise_std vel_noise_std : ℝ) :
    (normalizationStats acc_mean acc_std vel_mean vel_std
        acc_noise_std vel_noise_std).1.mean = acc_mean ∧
    (normalizationStats acc_mean acc_std vel_mean vel_std
        acc_noise_std vel_noise_std).2.mean = vel_mean ∧
    (normalizationStats acc_mean acc_std vel_mean vel_std
        acc_noise_std vel_noise_std).1.std.map (fun x => x ^ 2) =
      acc_std.map (fun s => s ^ 2 + acc_noise_std ^ 2) ∧
    (normalizationStats acc_mean acc_std vel_mean vel_std
        acc_noise_std vel_noise_std).2.std.map (fun x => x ^ 2) =
      vel_std.map (fun s => s ^ 2 + vel_noise_std ^ 2) ∧
    (normalizationStats acc_mean acc_std vel_mean vel_std
        acc_noise_std vel_noise_std).1.std.Forall (fun x => 0 ≤ x) ∧
    (normalizationStats acc_mean acc_std vel_mean vel_std
        acc_noise_std vel_noise_std).2.std.Forall (fun x => 0 ≤ x) := by
  obtain ⟨ha1, ha2, ha3⟩ := adjustedStats_spec acc_mean acc_std acc_noise_std
  obtain ⟨hv1, hv2, hv3⟩ := adjustedStats_spec vel_mean vel_std vel_noise_std
  exact ⟨ha1, hv1, ha2, hv2, ha3, hv3⟩

/-! ### Theorems about checkpoint resolution and loading (claims C8, C9) -/

/-- Helper: the running maximum of the source's `max_model_number` loop never
decreases below its initial value. -/
theorem foldlMax_init_le :
    ∀ (l : List Nat) (a : Nat),
      a ≤ l.foldl (fun m n => if n > m then n else m) a := by
  intro l
  induction l with
  | nil => intro a; exact Nat.le_refl a
  | cons x xs ih =>
    intro a
    refine Nat.le_trans ?_ (ih (if x > a then x else a))
    by_cases h : x > a
    · rw [if_pos h]; omega
    · rw [if_neg h]

/-- Helper: every element of the list is bounded by the loop's result. -/
theorem foldlMax_ge :
    ∀ (l : List Nat) (a s : Nat), s ∈ l →
      s ≤ l.foldl (fun m n => if n > m then n else m) a := by
  intro l
  induction l with
  | nil => intro a s hs; simp at hs
  | cons x xs ih =>
    intro a s hs
    rcases List.mem_cons.mp hs with h | h
    · subst h
      refine Nat.le_trans ?_ (foldlMax_init_le xs (if s > a then s else a))
      by_cases hc : s > a
      · rw [if_pos hc]
      · rw [if_neg hc]; omega
    · exact ih (if x > a then x else a) s h

/-- Helper: the loop's result is either the initial value or one of the
list's elements. -/
theorem foldlMax_mem :
    ∀ (l : List Nat) (a : Nat),
      l.foldl (fun m n => if n > m then n else m) a = a ∨
      l.foldl (fun m n => if n > m then n else m) a ∈ l := by
  intro l
  induction l with
  | nil => intro a; exact Or.inl rfl
  | cons x xs ih =>
    intro a
    rcases ih (if x > a then x else a) with h | h
    · rw [List.foldl_cons, h]
      by_cases hc : x > a
      · rw [if_pos hc]; exact Or.inr (List.mem_cons_self x xs)
      · rw [if_neg hc]; exact Or.inl rfl
    · exact Or.inr (List.mem_cons_of_mem x h)

/-- Claim C8: when `model_file` and `train_state_file` are both `"latest"`,
the resolved step is the maximum numeric step among the files matching
`{exp_id}-model-{digits}.pt` (it bounds every matching file's step and, when
nonzero, is one of them), and concretely for the files `exp-model-10.pt`,
`exp-model-25.pt`, `exp-model-3.pt` the step-25 model/train-state pair is
selected. -/
theorem latest_checkpoint_resolution (exp_id : String) (fnames : List String)
    (s : Nat) (hs : s ∈ modelSteps exp_id fnames) :
    s ≤ maxModelNumber exp_id fnames ∧
    (maxModelNumber exp_id fnames = 0 ∨
      maxModelNumber exp_id fnames ∈ modelSteps exp_id fnames) ∧
    resolveLatest "exp" ["exp-model-10.pt", "exp-model-25.pt", "exp-model-3.pt"] =
      ("exp-model-25.pt", "exp-train-state-25.pt") := by
  refine ⟨foldlMax_ge _ 0 s hs, ?_, by decide⟩
  rcases foldlMax_mem (modelSteps exp_id fnames) 0 with h | h
  · exact Or.inl h
  · exact Or.inr h

/-- Witness for C8's theorem at the claim's concrete directory listing. -/
theorem latest_checkpoint_resolution_witness :
    10 ∈ modelSteps "exp" ["exp-model-10.pt", "exp-model-25.pt", "exp-model-3.pt"] ∧
    (10 ≤ maxModelNumber "exp"
        ["exp-model-10.pt", "exp-model-25.pt", "exp-model-3.pt"] ∧
      (maxModelNumber "exp"
          ["exp-model-10.pt", "exp-model-25.pt", "exp-model-3.pt"] = 0 ∨
        maxModelNumber "exp"
          ["exp-model-10.pt", "exp-model-25.pt", "exp-model-3.pt"] ∈
          modelSteps "exp"
            ["exp-model-10.pt", "exp-model-25.pt", "exp-model-3.pt"]) ∧
      resolveLatest "exp"
          ["exp-model-10.pt", "exp-model-25.pt", "exp-model-3.pt"] =
        ("exp-model-25.pt", "exp-train-state-25.pt")) :=
  ⟨by decide,
    latest_checkpoint_resolution "exp"
      ["exp-model-10.pt", "exp-model-25.pt", "exp-model-3.pt"] 10 (by decide)⟩

/-- Counterexample to claim C9 as stated: with both checkpoint files missing,
the checkpoint-loading stage of `train` does not surface a fatal error — it
proceeds with training from scratch. -/
theorem missing_checkpoint_not_fatal :
    checkpointInit false false 7 = CheckpointInit.freshStart ∧
    CheckpointInit.freshStart ≠ CheckpointInit.fatalError := by decide

/-- Claim C9 (amended): if the resolved model file and train-state file do not
both exist, `train` logs the missing-pair message and starts training from
scratch (step 0, nothing loaded) instead of raising — the
`raise FileNotFoundError(msg)` on line 275 is commented out. -/
theorem missing_checkpoint_starts_fresh
    (model_file_exists train_state_file_exists : Bool) (saved_step : Nat)
    (h : ¬(model_file_exists = true ∧ train_state_file_exists = true)) :
    checkpointInit model_file_exists train_state_file_exists saved_step =
      CheckpointInit.freshStart := by
  cases model_file_exists <;> cases train_state_file_exists <;>
    simp_all [checkpointInit]

/-- Witness for C9's amended theorem: the model file is missing while the
train-state file exists. -/
theorem missing_checkpoint_starts_fresh_witness :
    ¬((false = true) ∧ (true = true)) ∧
    checkpointInit false true 3 = CheckpointInit.freshStart :=
  ⟨by decide, missing_checkpoint_starts_fresh false true 3 (by decide)⟩

end GNS
